import Mathlib

/-!
Verification of the job lifecycle manager and status-polling state machine of
the hwp-pdf repository.

The embedding covers:
  * `JobManager` (job_manager.js): an ordered in-memory list of job records
    with create / partial-update / lookup / remove operations;
  * the web controller (`processFile` / `pollStatus` in the fetch-based UI):
    validation, upload orchestration and the self-rescheduling polling loop;
  * the pywebview controller (`processFile` in static/js/ui.js): the
    synchronous conversion variant with no polling loop.

Numbers that JavaScript holds as IEEE doubles (the `progress` field and the
random synthetic increment `Math.random() * 5`) are modelled as rationals:
none of the properties verified here depend on floating-point rounding.
Nondeterministic inputs (`Date.now()`, `Math.random()`, server responses) are
explicit parameters.  A thrown JavaScript exception is modelled as
`Except.error`.
-/

deriving instance DecidableEq for Except

namespace HwpPdf

/-- The five status strings used by the controllers:
`'pending' | 'uploading' | 'processing' | 'completed' | 'failed'`. -/
inductive Status
  | pending
  | uploading
  | processing
  | completed
  | failed
deriving DecidableEq

/-- One job record, as built by `JobManager.addJob` and mutated by the
controllers.  `job_id` is the server-assigned id (`null` until upload
acceptance).  `error` is the dynamically added `job.error` property
(`undefined`, i.e. `none`, until a failure path writes it); `pdf_path` and
`pdf_filename` are the properties added by the pywebview controller on
success. -/
structure Job where
  id : String
  job_id : Option String
  filename : String
  status : Status
  progress : ℚ
  error : Option String
  created_at : Nat
  pdf_path : Option String
  pdf_filename : Option String
deriving DecidableEq

/-- The local id string built by `addJob`:
`'temp_' + Date.now() + '_' + Math.random().toString(36).substr(2, 9)`.
`time` is the value of `Date.now()` (a decimal integer when concatenated into
a string) and `rand` is the random base-36 suffix. -/
def makeId (time : Nat) (rand : String) : String :=
  "temp_" ++ Nat.repr time ++ "_" ++ rand

/-- `JobManager.addJob(filename)`: builds a fresh record with
`status: 'pending', progress: 0, job_id: null` and pushes it at the end of
the jobs array.  Returns the new record together with the new store. -/
def addJob (store : List Job) (filename : String) (time : Nat) (rand : String) :
    Job × List Job :=
  let job : Job :=
    { id := makeId time rand
      job_id := none
      filename := filename
      status := .pending
      progress := 0
      error := none
      created_at := time
      pdf_path := none
      pdf_filename := none }
  (job, store ++ [job])

/-- `JobManager.getJob(id)`: `this.jobs.find(j => j.id === id)`. -/
def getJob (store : List Job) (id : String) : Option Job :=
  store.find? (fun j => decide (j.id = id))

/-- `JobManager.getJobByServerId(serverJobId)`:
`this.jobs.find(j => j.job_id === serverJobId)`.  `none` models `null`. -/
def getJobByServerId (store : List Job) (serverJobId : Option String) : Option Job :=
  store.find? (fun j => decide (j.job_id = serverJobId))

/-- `JobManager.getAllJobs()`: returns the jobs array itself. -/
def getAllJobs (store : List Job) : List Job :=
  store

/-- `JobManager.removeJob(id)`: `this.jobs = this.jobs.filter(j => j.id !== id)`. -/
def removeJob (store : List Job) (id : String) : List Job :=
  store.filter (fun j => decide (j.id ≠ id))

/-- The field writes performed by `updateJobStatus` on the record it found.
JavaScript truthiness is modelled faithfully:
  * `if (status) job.status = status` — every status in use is a non-empty
    string, hence truthy, so a present `status` argument always overwrites;
  * `if (progress !== undefined) job.progress = progress` — an explicit
    `undefined` test, so any present value (including `0`) overwrites;
  * `if (serverJobId) job.job_id = serverJobId` — a truthiness test, so a
    present but empty string is skipped (as are `null`/`undefined`). -/
def applyUpdate (job : Job) (st : Option Status) (pr : Option ℚ) (sj : Option String) :
    Job :=
  let j1 := match st with
    | some s => { job with status := s }
    | none => job
  let j2 := match pr with
    | some p => { j1 with progress := p }
    | none => j1
  match sj with
  | some s => if s = "" then j2 else { j2 with job_id := some s }
  | none => j2

/-- In-place mutation of the record found by `find`: the first element of the
array whose `id` matches is replaced, later elements are untouched. -/
def replaceFirst (store : List Job) (id : String) (job' : Job) : List Job :=
  match store with
  | [] => []
  | j :: rest => if j.id = id then job' :: rest else j :: replaceFirst rest id job'

/-- `JobManager.updateJobStatus(id, status, progress, serverJobId = null)`:
looks the record up with `getJob`; when present, applies the partial update
and returns the record (`some`), when absent returns `null` (`none`) and the
store is untouched.  The function is total: no exception escapes. -/
def updateJobStatus (store : List Job) (id : String) (st : Option Status)
    (pr : Option ℚ) (sj : Option String) : Option Job × List Job :=
  match getJob store id with
  | some job =>
      let job' := applyUpdate job st pr sj
      (some job', replaceFirst store id job')
  | none => (none, store)

/-- Direct mutation `job.error = msg` applied to the record found for `id`
(used by the controllers outside `updateJobStatus`); a no-op when absent
(callers on this path have already checked presence — except for the polling
catch block, see `pollTick`). -/
def setError (store : List Job) (id : String) (msg : Option String) : List Job :=
  match getJob store id with
  | some job => replaceFirst store id { job with error := msg }
  | none => store

/-- Direct mutations `job.pdf_path = ...; job.pdf_filename = ...` performed by
the pywebview controller on conversion success. -/
def setPdf (store : List Job) (id : String) (pp pf : Option String) : List Job :=
  match getJob store id with
  | some job => replaceFirst store id { job with pdf_path := pp, pdf_filename := pf }
  | none => store

/-! ## Submission: validation and job creation -/

/-- JavaScript `str.split(sep)` for a one-character separator, on the
character list: splits at every occurrence of `sep`; always returns a
non-empty list.  (Structurally recursive so that it evaluates inside the
kernel; core's `String.splitOn` is well-founded-recursive and does not.) -/
def splitChar (sep : Char) : List Char → List (List Char)
  | [] => [[]]
  | c :: cs =>
    match splitChar sep cs with
    | [] => [[]]
    | piece :: rest =>
      if c = sep then [] :: piece :: rest else (c :: piece) :: rest

/-- JavaScript `str.split(sep)` for a one-character separator string,
producing strings. -/
def jsSplit (sep : Char) (s : String) : List String :=
  (splitChar sep s.data).map (fun l => String.mk l)

/-- JavaScript `str.toLowerCase()`.  `Char.toLower` lower-cases the basic
latin letters only — the only characters the extension allow-lists contain,
so the restriction is irrelevant to every claim. -/
def jsToLower (s : String) : String :=
  String.mk (s.data.map Char.toLower)

/-- `file.name.split('.').pop().toLowerCase()`: the (lower-cased) part after
the last dot; the whole name when there is no dot (`split` always yields a
non-empty array, so `pop` is defined). -/
def extOf (name : String) : String :=
  jsToLower ((jsSplit '.' name).getLastD "")

/-- The fetch-based controller's allow-list: `['hwp', 'hwpx', 'odt', 'docx']`. -/
def webAllowedExts : List String :=
  ["hwp", "hwpx", "odt", "docx"]

/-- `MAX_FILE_SIZE = 50 * 1024 * 1024` (bytes). -/
def MAX_FILE_SIZE : Nat :=
  50 * 1024 * 1024

/-- Outcome of the validation-and-creation part of a controller's
`processFile`: the store afterwards, the created record if one was created,
and the user-visible `alert` message if the file was rejected. -/
structure SubmitOutcome where
  store : List Job
  job : Option Job
  alert : Option String
deriving DecidableEq

/-- The fetch-based `processFile` up to job creation (validation, then
`jobManager.addJob`): a file whose extension is outside the allow-list or
whose size exceeds `MAX_FILE_SIZE` is rejected with an `alert` and no record
is created; otherwise a record is appended. -/
def processFile_web (store : List Job) (filename : String) (size : Nat)
    (time : Nat) (rand : String) : SubmitOutcome :=
  let ext := extOf filename
  if ¬ (ext ∈ webAllowedExts) then
    { store := store, job := none
      alert := some ("Skipped " ++ filename ++ ": Unsupported file type.") }
  else if size > MAX_FILE_SIZE then
    { store := store, job := none
      alert := some ("Skipped " ++ filename ++ ": File too large.") }
  else
    let (job, store') := addJob store filename time rand
    { store := store', job := some job, alert := none }

/-- `filePath.split('\\').pop().split('/').pop()`: the basename of the
path the pywebview controller receives. -/
def uiFilename (filePath : String) : String :=
  ((jsSplit '/' ((jsSplit '\\' filePath).getLastD "")).getLastD "")

/-- The pywebview controller's allow-list: `['hwp', 'hwpx']`. -/
def uiAllowedExts : List String :=
  ["hwp", "hwpx"]

/-- The pywebview `processFile` up to job creation.  It receives only a file
path; the extension of the basename is checked against `uiAllowedExts`, and
— unlike the fetch-based variant — there is no file-size check at all.  The
`size` parameter is the on-disk size of the submitted file; the code never
reads it, which is exactly what the relevant claim is about. -/
def processFile_ui (store : List Job) (filePath : String) (size : Nat)
    (time : Nat) (rand : String) : SubmitOutcome :=
  let filename := uiFilename filePath
  let ext := extOf filename
  if ¬ (ext ∈ uiAllowedExts) then
    -- the source's alert literal is a Korean message whose bytes are
    -- encoding-garbled in the repository; its exact content is irrelevant
    -- to every claim, only that a rejection alert is shown
    { store := store, job := none
      alert := some (filename ++ " is not a supported format.") }
  else
    let (job, store') := addJob store filename time rand
    { store := store', job := some job, alert := none }

/-! ## The polling loop (fetch-based controller) -/

/-- One remote answer to `API.checkStatus`: either a JSON payload with a
`status` (and possibly an `error` message), or a thrown network/transport
error (`API.checkStatus` rethrows any fetch failure). -/
inductive PollResponse
  | ok (status : Status) (error : Option String)
  | netError
deriving DecidableEq

/-- The synthetic progress advance of a non-terminal tick:
`let newProgress = job.progress; if (newProgress < 90) newProgress += Math.random() * 5`.
`d` is the value of `Math.random() * 5`, a real in `[0, 5)`. -/
def tickProgress (d p : ℚ) : ℚ :=
  if p < 90 then p + d else p

/-- One execution of `pollStatus(localId, serverJobId)` as far as the store is
concerned.  The result is the new store paired with `true` iff
`setTimeout(() => pollStatus(...), POLL_INTERVAL)` scheduled another tick;
`Except.error` models an exception escaping the tick (which in the source
becomes an unhandled promise rejection).

Faithful points worth noting:
  * in the success path the record is re-fetched after the `await` and an
    absent record terminates silently (`if (!job) return`);
  * in the `catch` path there is **no** such check: `const job =
    jobManager.getJob(localId); job.error = '...'` throws a `TypeError`
    when the record has been removed;
  * the failed-on-server branch writes `job.error = data.error || 'Failed on
    server'` before `updateJobStatus(localId, 'failed', 0)`;
  * the catch branch writes `job.error = 'Network error during polling'`
    (capital `N`) before `updateJobStatus(localId, 'failed', 0)`. -/
def pollTick (store : List Job) (localId : String) (resp : PollResponse) (d : ℚ) :
    Except String (List Job × Bool) :=
  match resp with
  | .ok st err =>
    match getJob store localId with
    | none => .ok (store, false)
    | some job =>
      if st = .completed then
        .ok ((updateJobStatus store localId (some .completed) (some 100) none).2, false)
      else if st = .failed then
        let store1 := setError store localId (some (err.getD "Failed on server"))
        .ok ((updateJobStatus store1 localId (some .failed) (some 0) none).2, false)
      else
        let newProgress := tickProgress d job.progress
        .ok ((updateJobStatus store localId (some .processing) (some newProgress) none).2, true)
  | .netError =>
    match getJob store localId with
    | none => .error "TypeError: Cannot set properties of undefined"
    | some _ =>
      let store1 := setError store localId (some "Network error during polling")
      .ok ((updateJobStatus store1 localId (some .failed) (some 0) none).2, false)

/-- The status of the tracked record, read back from the store. -/
def jobStatus (store : List Job) (id : String) : Option Status :=
  (getJob store id).map (fun j => j.status)

/-- Trace contribution of one store state: the tracked record's status, as a
zero- or one-element list. -/
def readStatus (store : List Job) (id : String) : List Status :=
  match jobStatus store id with
  | some s => [s]
  | none => []

/-- The self-rescheduling loop: each list element supplies one tick's remote
response and its `Math.random() * 5` value.  Returns the final store, the
sequence of statuses the record takes (read back from the store after each
executed tick), and the number of `API.checkStatus` queries issued.  A tick
that does not reschedule (or crashes) stops the loop: remaining responses
are never queried. -/
def runPoll (store : List Job) (localId : String) :
    List (PollResponse × ℚ) → List Job × List Status × Nat
  | [] => (store, [], 0)
  | (resp, d) :: rest =>
    match pollTick store localId resp d with
    | .error _ => (store, [], 1)
    | .ok (store', cont) =>
      if cont then
        let (fin, tr, q) := runPoll store' localId rest
        (fin, readStatus store' localId ++ tr, q + 1)
      else
        (store', readStatus store' localId, 1)

/-- Outcome of `await API.uploadFile(file)`: the server-assigned `job_id`, or
a thrown error carrying a message. -/
abbrev UploadOutcome := Except String String

/-- The fetch-based lifecycle after job creation: `'uploading'` at 10, the
upload, then either `'processing'` at 30 (with the server id) followed by the
polling loop, or the catch block (`'failed'` at 0, then
`job.error = error.message`).  Returns the final store, the statuses the
record takes (read back from the store after each transition), and the
number of status queries issued. -/
def continueUpload (s1 : List Job) (job : Job) (upload : UploadOutcome)
    (ticks : List (PollResponse × ℚ)) : List Job × List Status × Nat :=
  let s2 := (updateJobStatus s1 job.id (some .uploading) (some 10) none).2
  match upload with
  | .ok jid =>
    let s3 := (updateJobStatus s2 job.id (some .processing) (some 30) (some jid)).2
    let (fin, tr, q) := runPoll s3 job.id ticks
    (fin, readStatus s1 job.id ++ readStatus s2 job.id ++ readStatus s3 job.id ++ tr, q)
  | .error msg =>
    let s3 := (updateJobStatus s2 job.id (some .failed) (some 0) none).2
    let s4 := setError s3 job.id (some msg)
    (s4, readStatus s1 job.id ++ readStatus s2 job.id ++ readStatus s4 job.id, 0)

/-- The whole fetch-based lifecycle of one submitted file, starting from a
fresh manager: `processFile` (validation and creation, then
`continueUpload`). -/
def runJob_web (filename : String) (size : Nat) (time : Nat) (rand : String)
    (upload : UploadOutcome) (ticks : List (PollResponse × ℚ)) :
    List Job × List Status × Nat :=
  match processFile_web [] filename size time rand with
  | { store := s1, job := some job, alert := _ } => continueUpload s1 job upload ticks
  | out => (out.store, [], 0)

/-! ## The synchronous (pywebview) controller -/

/-- Outcome of `await window.pywebview.api.convert_file(filePath)`: a result
object `{success, pdf_path?, filename?, error?}`, or a thrown exception whose
`message` may be absent/empty. -/
inductive ConvertOutcome
  | ok (success : Bool) (pdf_path : Option String) (filename : Option String)
      (error : Option String)
  | threw (message : Option String)
deriving DecidableEq

/-- `error.message || <default>`: JavaScript `||` falls through on a missing
or empty message. -/
def messageOr (m : Option String) (dflt : String) : String :=
  match m with
  | some s => if s = "" then dflt else s
  | none => dflt

/-- The whole pywebview lifecycle of one submitted file, starting from a
fresh manager: validation and creation (`'pending'`), then
`updateJobStatus(job.id, 'processing', 30)`, then the synchronous
`convert_file` call and a single terminal transition (`'completed'` at 100
with the pdf fields on success, `'failed'` at 0 with `job.error` otherwise).
There is no upload phase, no `'uploading'` status and no status query: the
last component (the number of status queries issued) is always 0. -/
def continueConvert (s1 : List Job) (job : Job) (cr : ConvertOutcome) :
    List Job × List Status × Nat :=
  let s2 := (updateJobStatus s1 job.id (some .processing) (some 30) none).2
  match cr with
  | .ok true pp pf _ =>
    let s3 := setPdf s2 job.id pp pf
    let s4 := (updateJobStatus s3 job.id (some .completed) (some 100) none).2
    (s4, readStatus s1 job.id ++ readStatus s2 job.id ++ readStatus s4 job.id, 0)
  | .ok false _ _ err =>
    let s3 := setError s2 job.id err
    let s4 := (updateJobStatus s3 job.id (some .failed) (some 0) none).2
    (s4, readStatus s1 job.id ++ readStatus s2 job.id ++ readStatus s4 job.id, 0)
  | .threw msg =>
    -- `job.error = error.message || '<Korean message>'`; the fallback
    -- literal is encoding-garbled in the repository and irrelevant to
    -- every claim
    let s3 := setError s2 job.id (some (messageOr msg "conversion error"))
    let s4 := (updateJobStatus s3 job.id (some .failed) (some 0) none).2
    (s4, readStatus s1 job.id ++ readStatus s2 job.id ++ readStatus s4 job.id, 0)

/-- The whole pywebview lifecycle of one submitted file, starting from a
fresh manager. -/
def runJob_ui (filePath : String) (size : Nat) (time : Nat) (rand : String)
    (cr : ConvertOutcome) : List Job × List Status × Nat :=
  match processFile_ui [] filePath size time rand with
  | { store := s1, job := some job, alert := _ } => continueConvert s1 job cr
  | out => (out.store, [], 0)

/-! ## Status order and terminality -/

/-- Position of a status along the lifecycle chain
`pending → uploading → processing → {completed | failed}` (the two terminal
states share the final position). -/
def statusRank : Status → Nat
  | .pending => 0
  | .uploading => 1
  | .processing => 2
  | .completed => 3
  | .failed => 3

/-- The terminal statuses. -/
def isTerminal (s : Status) : Bool :=
  decide (s = .completed) || decide (s = .failed)

/-! ## Store lemmas -/

theorem getJob_id (store : List Job) (id : String) (job : Job)
    (h : getJob store id = some job) : job.id = id := by
  have := List.find?_some h
  simpa using this

theorem applyUpdate_id (job : Job) (st : Option Status) (pr : Option ℚ)
    (sj : Option String) : (applyUpdate job st pr sj).id = job.id := by
  unfold applyUpdate
  cases st <;> cases pr <;> cases sj <;> simp <;> split <;> rfl

theorem applyUpdate_filename (job : Job) (st : Option Status) (pr : Option ℚ)
    (sj : Option String) : (applyUpdate job st pr sj).filename = job.filename := by
  unfold applyUpdate
  cases st <;> cases pr <;> cases sj <;> simp <;> split <;> rfl

theorem applyUpdate_created_at (job : Job) (st : Option Status) (pr : Option ℚ)
    (sj : Option String) : (applyUpdate job st pr sj).created_at = job.created_at := by
  unfold applyUpdate
  cases st <;> cases pr <;> cases sj <;> simp <;> split <;> rfl

theorem applyUpdate_error (job : Job) (st : Option Status) (pr : Option ℚ)
    (sj : Option String) : (applyUpdate job st pr sj).error = job.error := by
  unfold applyUpdate
  cases st <;> cases pr <;> cases sj <;> simp <;> split <;> rfl

theorem applyUpdate_status_some (job : Job) (s : Status) (pr : Option ℚ)
    (sj : Option String) : (applyUpdate job (some s) pr sj).status = s := by
  unfold applyUpdate
  cases pr <;> cases sj <;> simp <;> split <;> rfl

theorem applyUpdate_status_none (job : Job) (pr : Option ℚ)
    (sj : Option String) : (applyUpdate job none pr sj).status = job.status := by
  unfold applyUpdate
  cases pr <;> cases sj <;> simp <;> split <;> rfl

theorem applyUpdate_progress_some (job : Job) (st : Option Status) (p : ℚ)
    (sj : Option String) : (applyUpdate job st (some p) sj).progress = p := by
  unfold applyUpdate
  cases st <;> cases sj <;> simp <;> split <;> rfl

theorem applyUpdate_progress_none (job : Job) (st : Option Status)
    (sj : Option String) : (applyUpdate job st none sj).progress = job.progress := by
  unfold applyUpdate
  cases st <;> cases sj <;> simp <;> split <;> rfl

theorem applyUpdate_job_id_some (job : Job) (st : Option Status) (pr : Option ℚ)
    (v : String) (hv : v ≠ "") :
    (applyUpdate job st pr (some v)).job_id = some v := by
  unfold applyUpdate
  cases st <;> cases pr <;> simp [hv]

theorem applyUpdate_job_id_skip (job : Job) (st : Option Status) (pr : Option ℚ)
    (sj : Option String) (hsj : sj = none ∨ sj = some "") :
    (applyUpdate job st pr sj).job_id = job.job_id := by
  unfold applyUpdate
  rcases hsj with h | h <;> subst h <;> cases st <;> cases pr <;> simp

theorem getJob_replaceFirst (store : List Job) (id : String) (job job' : Job)
    (h : getJob store id = some job) (hid : job'.id = id) :
    getJob (replaceFirst store id job') id = some job' := by
  induction store with
  | nil => simp [getJob] at h
  | cons j rest ih =>
    by_cases hj : j.id = id
    · simp [replaceFirst, hj, getJob, List.find?_cons, hid]
    · simp only [getJob, List.find?_cons, decide_eq_false hj] at h
      simp only [replaceFirst, if_neg hj, getJob, List.find?_cons, decide_eq_false hj]
      exact ih h

theorem updateJobStatus_found (store : List Job) (id : String) (job : Job)
    (st : Option Status) (pr : Option ℚ) (sj : Option String)
    (h : getJob store id = some job) :
    updateJobStatus store id st pr sj =
      (some (applyUpdate job st pr sj), replaceFirst store id (applyUpdate job st pr sj)) := by
  unfold updateJobStatus
  rw [h]

theorem getJob_updateJobStatus (store : List Job) (id : String) (job : Job)
    (st : Option Status) (pr : Option ℚ) (sj : Option String)
    (h : getJob store id = some job) :
    getJob (updateJobStatus store id st pr sj).2 id = some (applyUpdate job st pr sj) := by
  rw [updateJobStatus_found store id job st pr sj h]
  exact getJob_replaceFirst store id job _ h
    ((applyUpdate_id job st pr sj).trans (getJob_id store id job h))

theorem setError_found (store : List Job) (id : String) (job : Job)
    (msg : Option String) (h : getJob store id = some job) :
    setError store id msg = replaceFirst store id { job with error := msg } := by
  unfold setError
  rw [h]

theorem getJob_setError (store : List Job) (id : String) (job : Job)
    (msg : Option String) (h : getJob store id = some job) :
    getJob (setError store id msg) id = some { job with error := msg } := by
  rw [setError_found store id job msg h]
  exact getJob_replaceFirst store id job _ h (getJob_id store id job h)

theorem readStatus_of_getJob (store : List Job) (id : String) (job : Job)
    (h : getJob store id = some job) : readStatus store id = [job.status] := by
  simp [readStatus, jobStatus, h]

theorem readStatus_of_none (store : List Job) (id : String)
    (h : getJob store id = none) : readStatus store id = [] := by
  simp [readStatus, jobStatus, h]

theorem readStatus_update (store : List Job) (id : String) (job : Job)
    (s : Status) (pr : Option ℚ) (sj : Option String)
    (h : getJob store id = some job) :
    readStatus (updateJobStatus store id (some s) pr sj).2 id = [s] := by
  rw [readStatus_of_getJob _ id (applyUpdate job (some s) pr sj)
    (getJob_updateJobStatus store id job (some s) pr sj h)]
  rw [applyUpdate_status_some]

/-! ## Poll-loop lemmas -/

/-- A tick that reschedules (`setTimeout(... )` reached) has just set the
record's status to `'processing'`. -/
theorem pollTick_ok_true (store : List Job) (id : String) (resp : PollResponse)
    (d : ℚ) (store' : List Job)
    (h : pollTick store id resp d = .ok (store', true)) :
    readStatus store' id = [.processing] := by
  cases resp with
  | ok st err =>
    cases hg : getJob store id with
    | none =>
      simp only [pollTick, hg] at h
      injection h with h1
      injection h1 with h2 h3
      exact Bool.noConfusion h3
    | some job =>
      by_cases hc : st = Status.completed
      · simp only [pollTick, hg, if_pos hc] at h
        injection h with h1
        injection h1 with h2 h3
        exact Bool.noConfusion h3
      · by_cases hf : st = Status.failed
        · simp only [pollTick, hg, if_neg hc, if_pos hf] at h
          injection h with h1
          injection h1 with h2 h3
          exact Bool.noConfusion h3
        · simp only [pollTick, hg, if_neg hc, if_neg hf] at h
          injection h with h1
          injection h1 with h2 h3
          subst h2
          exact readStatus_update store id job .processing _ none hg
  | netError =>
    cases hg : getJob store id with
    | none =>
      simp only [pollTick, hg] at h
      exact Except.noConfusion h
    | some job =>
      simp only [pollTick, hg] at h
      injection h with h1
      injection h1 with h2 h3
      exact Bool.noConfusion h3

/-- A tick that does not reschedule leaves the record either gone (silent
termination after removal) or in a terminal status. -/
theorem pollTick_ok_false (store : List Job) (id : String) (resp : PollResponse)
    (d : ℚ) (store' : List Job)
    (h : pollTick store id resp d = .ok (store', false)) :
    readStatus store' id = [] ∨ readStatus store' id = [.completed] ∨
      readStatus store' id = [.failed] := by
  cases resp with
  | ok st err =>
    cases hg : getJob store id with
    | none =>
      simp only [pollTick, hg] at h
      injection h with h1
      injection h1 with h2 h3
      subst h2
      exact Or.inl (readStatus_of_none store id hg)
    | some job =>
      by_cases hc : st = Status.completed
      · simp only [pollTick, hg, if_pos hc] at h
        injection h with h1
        injection h1 with h2 h3
        subst h2
        exact Or.inr (Or.inl (readStatus_update store id job .completed _ none hg))
      · by_cases hf : st = Status.failed
        · simp only [pollTick, hg, if_neg hc, if_pos hf] at h
          injection h with h1
          injection h1 with h2 h3
          subst h2
          refine Or.inr (Or.inr ?_)
          exact readStatus_update _ id { job with error := some (err.getD "Failed on server") }
            .failed _ none (getJob_setError store id job _ hg)
        · simp only [pollTick, hg, if_neg hc, if_neg hf] at h
          injection h with h1
          injection h1 with h2 h3
          exact Bool.noConfusion h3
  | netError =>
    cases hg : getJob store id with
    | none =>
      simp only [pollTick, hg] at h
      exact Except.noConfusion h
    | some job =>
      simp only [pollTick, hg] at h
      injection h with h1
      injection h1 with h2 h3
      subst h2
      refine Or.inr (Or.inr ?_)
      exact readStatus_update _ id { job with error := some "Network error during polling" }
        .failed _ none (getJob_setError store id job _ hg)

/-- Status trace of the polling loop: some `'processing'` entries followed by
nothing (removal or crash mid-loop, or responses exhausted) or by a single
terminal entry. -/
theorem runPoll_trace (ticks : List (PollResponse × ℚ)) (store : List Job)
    (id : String) :
    ∃ k tail, (runPoll store id ticks).2.1 = List.replicate k Status.processing ++ tail ∧
      (tail = [] ∨ tail = [Status.completed] ∨ tail = [Status.failed]) := by
  induction ticks generalizing store with
  | nil => exact ⟨0, [], by simp [runPoll], Or.inl rfl⟩
  | cons t rest ih =>
    obtain ⟨resp, d⟩ := t
    cases hpt : pollTick store id resp d with
    | error e => exact ⟨0, [], by simp [runPoll, hpt], Or.inl rfl⟩
    | ok res =>
      obtain ⟨store', cont⟩ := res
      cases cont with
      | true =>
        obtain ⟨k, tail, htr, htail⟩ := ih store'
        refine ⟨k + 1, tail, ?_, htail⟩
        simp [runPoll, hpt, pollTick_ok_true store id resp d store' hpt, htr,
          List.replicate_succ]
      | false =>
        rcases pollTick_ok_false store id resp d store' hpt with h0 | h0 | h0
        · exact ⟨0, [], by simp [runPoll, hpt, h0], Or.inl rfl⟩
        · exact ⟨0, [Status.completed], by simp [runPoll, hpt, h0], Or.inr (Or.inl rfl)⟩
        · exact ⟨0, [Status.failed], by simp [runPoll, hpt, h0], Or.inr (Or.inr rfl)⟩

/-- Every status that can appear in a poll-loop trace suffix has rank ≥ 2. -/
theorem head_rank_ge_two (k : Nat) (tail : List Status)
    (htail : tail = [] ∨ tail = [Status.completed] ∨ tail = [Status.failed]) :
    ∀ y ∈ (List.replicate k Status.processing ++ tail).head?, 2 ≤ statusRank y := by
  cases k with
  | zero => rcases htail with h | h | h <;> subst h <;> simp [statusRank]
  | succ k => simp [List.replicate_succ, statusRank]

/-- The poll-loop suffix of a trace is rank-monotone. -/
theorem chain_replicate_tail (k : Nat) (tail : List Status)
    (htail : tail = [] ∨ tail = [Status.completed] ∨ tail = [Status.failed]) :
    List.Chain' (fun a b => statusRank a ≤ statusRank b)
      (List.replicate k Status.processing ++ tail) := by
  induction k with
  | zero => rcases htail with h | h | h <;> subst h <;> simp
  | succ k ih =>
    rw [List.replicate_succ, List.cons_append, List.chain'_cons']
    refine ⟨fun y hy => ?_, ih⟩
    exact head_rank_ge_two k tail htail y hy

/-- Nothing follows the first terminal entry of a poll-loop trace suffix. -/
theorem dropWhile_replicate_tail (k : Nat) (tail : List Status)
    (htail : tail = [] ∨ tail = [Status.completed] ∨ tail = [Status.failed]) :
    (List.dropWhile (fun s => ! isTerminal s)
      (List.replicate k Status.processing ++ tail)).length ≤ 1 := by
  induction k with
  | zero => rcases htail with h | h | h <;> subst h <;> simp [List.dropWhile, isTerminal]
  | succ k ih =>
    rw [List.replicate_succ, List.cons_append]
    simpa [List.dropWhile, isTerminal] using ih

theorem getJob_singleton (job : Job) : getJob [job] job.id = some job := by
  simp [getJob, List.find?]

/-- Shape of the status trace of `continueUpload` run on the store that
holds exactly the freshly created (`'pending'`) record. -/
theorem continueUpload_trace (job : Job) (upload : UploadOutcome)
    (ticks : List (PollResponse × ℚ)) (hst : job.status = .pending) :
    (∃ k tail, (tail = [] ∨ tail = [Status.completed] ∨ tail = [Status.failed]) ∧
      (continueUpload [job] job upload ticks).2.1 =
        Status.pending :: Status.uploading :: Status.processing ::
          (List.replicate k Status.processing ++ tail)) ∨
    (continueUpload [job] job upload ticks).2.1 =
      [Status.pending, Status.uploading, Status.failed] := by
  have hg1 : getJob [job] job.id = some job := getJob_singleton job
  have hr1 : readStatus [job] job.id = [Status.pending] := by
    rw [readStatus_of_getJob _ _ _ hg1, hst]
  have hr2 := readStatus_update [job] job.id job .uploading (some 10) none hg1
  have hg2 := getJob_updateJobStatus [job] job.id job (some .uploading) (some 10) none hg1
  cases upload with
  | ok jid =>
    have hr3 := readStatus_update _ job.id (applyUpdate job (some .uploading) (some 10) none)
      .processing (some 30) (some jid) hg2
    obtain ⟨k, tail, htr, htail⟩ := runPoll_trace ticks
      (updateJobStatus (updateJobStatus [job] job.id (some .uploading) (some 10) none).2
        job.id (some .processing) (some 30) (some jid)).2 job.id
    refine Or.inl ⟨k, tail, htail, ?_⟩
    rcases hrp : runPoll (updateJobStatus
        (updateJobStatus [job] job.id (some .uploading) (some 10) none).2
        job.id (some .processing) (some 30) (some jid)).2 job.id ticks with ⟨fin, tr, q⟩
    rw [hrp] at htr
    simp only [continueUpload, hrp, hr1, hr2, hr3]
    simpa using htr
  | error msg =>
    have hg3 := getJob_updateJobStatus _ job.id
      (applyUpdate job (some .uploading) (some 10) none) (some .failed) (some 0) none hg2
    have hr4 : readStatus (setError (updateJobStatus
        (updateJobStatus [job] job.id (some .uploading) (some 10) none).2
        job.id (some .failed) (some 0) none).2 job.id (some msg)) job.id =
        [Status.failed] := by
      rw [readStatus_of_getJob _ _ _ (getJob_setError _ _ _ (some msg) hg3)]
      simp [applyUpdate_status_some]
    refine Or.inr ?_
    simp only [continueUpload, hr1, hr2, hr4]
    simp

/-- The catch path of `processFile` issues no status query at all. -/
theorem continueUpload_queries_error (s1 : List Job) (job : Job) (msg : String)
    (ticks : List (PollResponse × ℚ)) :
    (continueUpload s1 job (.error msg) ticks).2.2 = 0 := by
  simp [continueUpload]

/-- Shape of the status trace of the full fetch-based lifecycle. -/
theorem runJob_web_trace (filename : String) (size time : Nat) (rand : String)
    (upload : UploadOutcome) (ticks : List (PollResponse × ℚ)) :
    (∃ k tail, (tail = [] ∨ tail = [Status.completed] ∨ tail = [Status.failed]) ∧
      (runJob_web filename size time rand upload ticks).2.1 =
        Status.pending :: Status.uploading :: Status.processing ::
          (List.replicate k Status.processing ++ tail)) ∨
    (runJob_web filename size time rand upload ticks).2.1 =
      [Status.pending, Status.uploading, Status.failed] ∨
    (runJob_web filename size time rand upload ticks).2.1 = [] := by
  by_cases hext : extOf filename ∈ webAllowedExts
  · by_cases hsize : size > MAX_FILE_SIZE
    · right; right
      simp [runJob_web, processFile_web, hext, hsize]
    · have hweb : processFile_web [] filename size time rand =
          { store := [(addJob [] filename time rand).1], job := some (addJob [] filename time rand).1,
            alert := none } := by
        simp [processFile_web, hext, hsize, addJob]
      rcases continueUpload_trace (addJob [] filename time rand).1 upload ticks rfl with
        ⟨k, tail, htail, htr⟩ | htr
      · left
        refine ⟨k, tail, htail, ?_⟩
        rw [runJob_web, hweb]
        simpa [addJob] using htr
      · right; left
        rw [runJob_web, hweb]
        simpa [addJob] using htr
  · right; right
    simp [runJob_web, processFile_web, hext]

theorem chain_full_trace (k : Nat) (tail : List Status)
    (htail : tail = [] ∨ tail = [Status.completed] ∨ tail = [Status.failed]) :
    List.Chain' (fun a b => statusRank a ≤ statusRank b)
      (Status.pending :: Status.uploading :: Status.processing ::
        (List.replicate k Status.processing ++ tail)) := by
  refine List.chain'_cons'.mpr ⟨?_, List.chain'_cons'.mpr ⟨?_,
    List.chain'_cons'.mpr ⟨?_, chain_replicate_tail k tail htail⟩⟩⟩
  · simp [statusRank]
  · simp [statusRank]
  · exact head_rank_ge_two k tail htail

theorem dropWhile_full_trace (k : Nat) (tail : List Status)
    (htail : tail = [] ∨ tail = [Status.completed] ∨ tail = [Status.failed]) :
    (List.dropWhile (fun s => ! isTerminal s)
      (Status.pending :: Status.uploading :: Status.processing ::
        (List.replicate k Status.processing ++ tail))).length ≤ 1 := by
  simpa [List.dropWhile_cons, isTerminal] using dropWhile_replicate_tail k tail htail

/-! ## The claims -/

/-- C2: for every job, the sequence of status values it takes along the
fetch-based lifecycle is monotone along
`pending → uploading → processing → {completed | failed}` (first conjunct);
once a terminal status is reached no later status entry exists at all, i.e.
nothing ever changes the job's status again (second conjunct); a poll tick
that ends the loop (in particular one that set a terminal status) makes the
loop's result independent of any remaining responses — exactly one query is
issued for that tick and none for the rest, so no further status query is
ever issued for the job (third conjunct); and when the upload itself fails
(the job becomes terminal without entering `processing`) no status query is
ever issued at all (fourth conjunct). -/
theorem claim_C2_status_monotone_terminal (filename : String) (size time : Nat)
    (rand : String) (upload : UploadOutcome) (ticks : List (PollResponse × ℚ)) :
    List.Chain' (fun a b => statusRank a ≤ statusRank b)
      (runJob_web filename size time rand upload ticks).2.1 ∧
    ((runJob_web filename size time rand upload ticks).2.1.dropWhile
      (fun s => ! isTerminal s)).length ≤ 1 ∧
    (∀ (store : List Job) (localId : String) (resp : PollResponse) (d : ℚ)
      (store' : List Job) (rest : List (PollResponse × ℚ)),
      pollTick store localId resp d = .ok (store', false) →
      runPoll store localId ((resp, d) :: rest) = (store', readStatus store' localId, 1)) ∧
    (∀ msg : String, upload = .error msg →
      (runJob_web filename size time rand upload ticks).2.2 = 0) := by
  refine ⟨?_, ?_, ?_, ?_⟩
  · rcases runJob_web_trace filename size time rand upload ticks with
      ⟨k, tail, htail, htr⟩ | htr | htr
    · rw [htr]; exact chain_full_trace k tail htail
    · rw [htr]
      exact List.chain'_cons'.mpr ⟨by simp [statusRank], List.chain'_cons'.mpr
        ⟨by simp [statusRank], List.chain'_singleton _⟩⟩
    · rw [htr]; simp
  · rcases runJob_web_trace filename size time rand upload ticks with
      ⟨k, tail, htail, htr⟩ | htr | htr
    · rw [htr]; exact dropWhile_full_trace k tail htail
    · rw [htr]; decide
    · rw [htr]; simp
  · intro store localId resp d store' rest h
    simp [runPoll, h]
  · intro msg hmsg
    subst hmsg
    unfold runJob_web
    cases hpf : processFile_web [] filename size time rand with
    | mk store job alert =>
      cases job with
      | some j => exact continueUpload_queries_error store j msg ticks
      | none => rfl

/-- Witness for C2 at a concrete run: a job that is uploaded and polled to
completion has a rank-monotone status trace, and a terminal poll tick stops
the loop with exactly one query. -/
theorem claim_C2_witness :
    List.Chain' (fun a b => statusRank a ≤ statusRank b)
      (runJob_web "a.hwp" 1 0 "r" (.ok "J1")
        [(.ok .processing none, 1), (.ok .completed none, 2)]).2.1 :=
  (claim_C2_status_monotone_terminal "a.hwp" 1 0 "r" (.ok "J1")
    [(.ok .processing none, 1), (.ok .completed none, 2)]).1

end HwpPdf


namespace HwpPdf

/-- The concrete processing job used to refute C1: its synthetic progress
stands at 89, below the 90 guard. -/
def c1Job : Job :=
  { id := "temp_0_aaaaaaaaa", job_id := some "J1", filename := "a.hwp",
    status := .processing, progress := 89, error := none, created_at := 0,
    pdf_path := none, pdf_filename := none }

/-- C1 counterexample: a poll tick on a `processing` job at progress 89, with
a non-terminal remote response and synthetic delta `4 ∈ [0, 5)`, leaves the
job at progress 93 — at least 90 — without any terminal remote response: the
guard `if (newProgress < 90)` is checked before the increment is added, so a
single increment can carry progress past 90. -/
theorem claim_C1_counterexample :
    c1Job.status = .processing ∧ (0:ℚ) ≤ 4 ∧ (4:ℚ) < 5 ∧
    pollTick [c1Job] "temp_0_aaaaaaaaa" (.ok .processing none) 4 =
      .ok ([{ c1Job with progress := 93 }], true) ∧
    ¬ (({ c1Job with progress := (93:ℚ) } : Job).progress < 90) := by
  refine ⟨rfl, by norm_num, by norm_num, ?_, by norm_num [c1Job]⟩
  norm_num [pollTick, getJob, List.find?, c1Job, updateJobStatus, applyUpdate,
    replaceFirst, tickProgress]
  rfl

/-- C1 (amended): the synthetic increment is applied only when the job's
progress is below 90, and each delta is below 5, so a rescheduling poll tick
keeps the progress of a job strictly below 95 (not 90 as claimed); moreover
at or above 90 the synthetic mechanism leaves progress unchanged, so no
synthetic run can carry progress to 95 or beyond. -/
theorem claim_C1_amended (store : List Job) (id : String) (job : Job)
    (st : Status) (err : Option String) (d : ℚ) (store' : List Job)
    (hj : getJob store id = some job) (h0 : 0 ≤ d) (h5 : d < 5)
    (hp : job.progress < 95)
    (hrun : pollTick store id (.ok st err) d = .ok (store', true)) :
    (∀ job', getJob store' id = some job' → job'.progress < 95) ∧
    (90 ≤ job.progress →
      ∀ job', getJob store' id = some job' → job'.progress = job.progress) := by
  by_cases hc : st = Status.completed
  · simp only [pollTick, hj, if_pos hc] at hrun
    injection hrun with h1
    injection h1 with h2 h3
    exact Bool.noConfusion h3
  · by_cases hf : st = Status.failed
    · simp only [pollTick, hj, if_neg hc, if_pos hf] at hrun
      injection hrun with h1
      injection h1 with h2 h3
      exact Bool.noConfusion h3
    · simp only [pollTick, hj, if_neg hc, if_neg hf] at hrun
      injection hrun with h1
      injection h1 with h2 h3
      subst h2
      have hupd := getJob_updateJobStatus store id job (some .processing)
        (some (tickProgress d job.progress)) none hj
      constructor
      · intro job' hj'
        rw [hupd] at hj'
        injection hj' with he
        subst he
        rw [applyUpdate_progress_some]
        unfold tickProgress
        by_cases hlt : job.progress < 90
        · rw [if_pos hlt]; linarith
        · rw [if_neg hlt]; exact hp
      · intro h90 job' hj'
        rw [hupd] at hj'
        injection hj' with he
        subst he
        rw [applyUpdate_progress_some]
        unfold tickProgress
        rw [if_neg (by linarith)]

/-- Witness for the amended C1 at a concrete tick: a processing job at
progress 50 receiving delta 3 ends below 95. -/
theorem claim_C1_amended_witness :
    ({ c1Job with progress := (53:ℚ) } : Job).progress < 95 := by
  have hrun : pollTick [{ c1Job with progress := (50:ℚ) }] "temp_0_aaaaaaaaa"
      (.ok .processing none) 3 =
      .ok ([{ c1Job with progress := 53 }], true) := by
    norm_num [pollTick, getJob, List.find?, c1Job, updateJobStatus,
      applyUpdate, replaceFirst, tickProgress]
    rfl
  exact (claim_C1_amended [{ c1Job with progress := (50:ℚ) }] "temp_0_aaaaaaaaa"
    { c1Job with progress := (50:ℚ) } .processing none 3
    [{ c1Job with progress := 53 }]
    (by norm_num [getJob, List.find?, c1Job]) (by norm_num) (by norm_num)
    (by norm_num [c1Job]) hrun).1 _ (by norm_num [getJob, List.find?, c1Job])

end HwpPdf

namespace HwpPdf

theorem replaceFirst_replaceFirst (store : List Job) (id : String) (j1 j2 : Job)
    (h1 : j1.id = id) :
    replaceFirst (replaceFirst store id j1) id j2 = replaceFirst store id j2 := by
  induction store with
  | nil => rfl
  | cons j rest ih =>
    by_cases hj : j.id = id
    · simp [replaceFirst, hj, h1]
    · simp [replaceFirst, hj, ih]

/-- The concrete processing job used for C3. -/
def c3Job : Job :=
  { id := "temp_1_bbbbbbbbb", job_id := some "J2", filename := "b.hwp",
    status := .processing, progress := 40, error := none, created_at := 1,
    pdf_path := none, pdf_filename := none }

/-- C3 counterexample: on a transport error the catch block writes
`job.error = 'Network error during polling'` — with a capital `N` — so the
error is *not* exactly the claimed string `"network error during polling"`. -/
theorem claim_C3_counterexample :
    pollTick [c3Job] "temp_1_bbbbbbbbb" .netError 0 =
      .ok ([{ c3Job with
                status := .failed
                progress := 0
                error := some "Network error during polling" }], false) ∧
    (some "Network error during polling" : Option String) ≠
      some "network error during polling" := by
  constructor
  · decide
  · decide

/-- C3 (amended): for every job present in the store, a poll tick whose
status query fails with a transport error updates exactly that record to
`status = failed`, `progress = 0`,
`error = "Network error during polling"` (capital `N`, unlike the claimed
all-lowercase string), leaves every other record unchanged (`replaceFirst`),
and schedules no further tick (the `false` component). -/
theorem claim_C3_amended (store : List Job) (id : String) (job : Job) (d : ℚ)
    (h : getJob store id = some job) :
    pollTick store id .netError d =
      .ok (replaceFirst store id
        { job with
          status := .failed
          progress := 0
          error := some "Network error during polling" }, false) := by
  have hid := getJob_id store id job h
  simp only [pollTick, h]
  rw [updateJobStatus_found _ id { job with error := some "Network error during polling" }
    (some .failed) (some 0) none (getJob_setError store id job _ h)]
  rw [setError_found store id job _ h]
  rw [replaceFirst_replaceFirst store id _ _ (by simp [hid])]
  rfl

/-- Witness for the amended C3 at the concrete job `c3Job`. -/
theorem claim_C3_amended_witness :
    pollTick [c3Job] "temp_1_bbbbbbbbb" .netError 0 =
      .ok (replaceFirst [c3Job] "temp_1_bbbbbbbbb"
        { c3Job with
          status := .failed
          progress := 0
          error := some "Network error during polling" }, false) :=
  claim_C3_amended [c3Job] "temp_1_bbbbbbbbb" c3Job 0 (by decide)

/-- C4 (code bug, evaluated at the failing input): after the job has been
removed from the store, a poll tick whose status query *succeeds* terminates
silently without mutating the store and without scheduling (first conjunct,
as the claim demands); but a poll tick whose status query *fails* hits the
catch block, which reads `jobManager.getJob(localId)` without a presence
check and performs `job.error = ...` on `undefined` — a `TypeError` escapes
the tick instead of the claimed silent termination. -/
theorem claim_C4_bug :
    pollTick (removeJob [c1Job] "temp_0_aaaaaaaaa") "temp_0_aaaaaaaaa"
        (.ok .processing none) 0 =
      .ok (removeJob [c1Job] "temp_0_aaaaaaaaa", false) ∧
    pollTick (removeJob [c1Job] "temp_0_aaaaaaaaa") "temp_0_aaaaaaaaa"
        .netError 0 =
      .error "TypeError: Cannot set properties of undefined" := by
  constructor
  · decide
  · decide

end HwpPdf

namespace HwpPdf

/-! ## Decimal representation: value and character facts

`makeId` concatenates `Date.now()` (decimal digits) and the random suffix
around `'_'` separators; to reason about id collisions we need that the
decimal digits of a `Nat` determine it and never contain `'_'`. -/

/-- Numeric value of a decimal digit character. -/
def charVal (c : Char) : Nat :=
  if c = '0' then 0 else if c = '1' then 1 else if c = '2' then 2 else
  if c = '3' then 3 else if c = '4' then 4 else if c = '5' then 5 else
  if c = '6' then 6 else if c = '7' then 7 else if c = '8' then 8 else
  if c = '9' then 9 else 0

/-- Value of a digit-character list read as a decimal numeral. -/
def digitsVal : List Char → Nat
  | [] => 0
  | c :: cs => charVal c * 10 ^ cs.length + digitsVal cs

theorem charVal_digitChar (n : Nat) (h : n < 10) :
    charVal (Nat.digitChar n) = n := by
  interval_cases n <;> decide

theorem digitChar_ne_underscore (n : Nat) (h : n < 10) :
    Nat.digitChar n ≠ '_' := by
  interval_cases n <;> decide

theorem digitsVal_toDigitsCore (fuel : Nat) :
    ∀ (n : Nat) (ds : List Char), n < fuel →
      digitsVal (Nat.toDigitsCore 10 fuel n ds) =
        n * 10 ^ ds.length + digitsVal ds := by
  induction fuel with
  | zero => intro n ds h; exact absurd h (Nat.not_lt_zero n)
  | succ fuel ih =>
    intro n ds h
    rw [Nat.toDigitsCore]
    by_cases h10 : n / 10 = 0
    · rw [if_pos h10]
      simp only [digitsVal]
      rw [charVal_digitChar (n % 10) (Nat.mod_lt n (by omega))]
      have hmod : n % 10 = n := by omega
      rw [hmod]
    · rw [if_neg h10]
      rw [ih (n / 10) (Nat.digitChar (n % 10) :: ds) (by omega)]
      simp only [digitsVal, List.length_cons]
      rw [charVal_digitChar (n % 10) (Nat.mod_lt n (by omega))]
      have hkey : n / 10 * 10 ^ (ds.length + 1) + n % 10 * 10 ^ ds.length
          = n * 10 ^ ds.length := by
        have hdm : n / 10 * 10 + n % 10 = n := by omega
        calc n / 10 * 10 ^ (ds.length + 1) + n % 10 * 10 ^ ds.length
            = (n / 10 * 10 + n % 10) * 10 ^ ds.length := by ring
          _ = n * 10 ^ ds.length := by rw [hdm]
      rw [← hkey]
      ring

theorem digitsVal_toDigits (n : Nat) :
    digitsVal (Nat.toDigits 10 n) = n := by
  have := digitsVal_toDigitsCore (n + 1) n [] (Nat.lt_succ_self n)
  simpa [Nat.toDigits, digitsVal] using this

theorem toDigitsCore_no_underscore (fuel : Nat) :
    ∀ (n : Nat) (ds : List Char), '_' ∉ ds →
      '_' ∉ Nat.toDigitsCore 10 fuel n ds := by
  induction fuel with
  | zero => intro n ds h; simpa [Nat.toDigitsCore] using h
  | succ fuel ih =>
    intro n ds h
    rw [Nat.toDigitsCore]
    by_cases h10 : n / 10 = 0
    · rw [if_pos h10]
      intro hmem
      rcases List.mem_cons.mp hmem with h1 | h1
      · exact digitChar_ne_underscore (n % 10) (Nat.mod_lt n (by omega)) h1.symm
      · exact h h1
    · rw [if_neg h10]
      refine ih (n / 10) _ ?_
      intro hmem
      rcases List.mem_cons.mp hmem with h1 | h1
      · exact digitChar_ne_underscore (n % 10) (Nat.mod_lt n (by omega)) h1.symm
      · exact h h1

theorem repr_data_eq (n : Nat) : (Nat.repr n).data = Nat.toDigits 10 n :=
  rfl

theorem repr_no_underscore (n : Nat) : '_' ∉ (Nat.repr n).data := by
  rw [repr_data_eq]
  exact toDigitsCore_no_underscore (n + 1) n [] (by simp)

theorem append_underscore_inj (a : List Char) :
    ∀ (b r r' : List Char), '_' ∉ a → '_' ∉ b →
      a ++ '_' :: r = b ++ '_' :: r' → a = b ∧ r = r' := by
  induction a with
  | nil =>
    intro b r r' _ hb h
    cases b with
    | nil => simpa using h
    | cons y ys =>
      simp only [List.nil_append, List.cons_append, List.cons.injEq] at h
      exact absurd (by simp [← h.1]) hb
  | cons x xs ih =>
    intro b r r' ha hb h
    cases b with
    | nil =>
      simp only [List.cons_append, List.nil_append, List.cons.injEq] at h
      exact absurd (by simp [h.1]) ha
    | cons y ys =>
      simp only [List.cons_append, List.cons.injEq] at h
      obtain ⟨hxy, hrest⟩ := h
      obtain ⟨hab, hrr⟩ := ih ys r r' (fun hm => ha (List.mem_cons_of_mem x hm))
        (fun hm => hb (List.mem_cons_of_mem y hm)) hrest
      exact ⟨by rw [hxy, hab], hrr⟩

/-- The id built by `addJob` determines the `Date.now()` value and the random
suffix: `'temp_' + time + '_' + rand` is injective in `(time, rand)` because
the decimal digits of `time` contain no underscore. -/
theorem makeId_inj (t t' : Nat) (r r' : String)
    (h : makeId t r = makeId t' r') : t = t' ∧ r = r' := by
  unfold makeId at h
  have hd := congrArg String.data h
  simp only [String.data_append, List.append_assoc] at hd
  have hd5 : (Nat.repr t).data ++ '_' :: r.data =
      (Nat.repr t').data ++ '_' :: r'.data := by
    have : ('t' :: 'e' :: 'm' :: 'p' :: '_' :: ((Nat.repr t).data ++ ('_' :: r.data))) =
        ('t' :: 'e' :: 'm' :: 'p' :: '_' :: ((Nat.repr t').data ++ ('_' :: r'.data))) := by
      simpa using hd
    simpa using this
  obtain ⟨hrepr, hdata⟩ := append_underscore_inj (Nat.repr t).data (Nat.repr t').data
    r.data r'.data (repr_no_underscore t) (repr_no_underscore t') hd5
  constructor
  · have := congrArg digitsVal hrepr
    rwa [repr_data_eq, repr_data_eq, digitsVal_toDigits, digitsVal_toDigits] at this
  · exact String.ext hdata

end HwpPdf

namespace HwpPdf

/-- C5 counterexample: two `addJob` calls that draw the same `Date.now()`
value and the same `Math.random()` suffix return records with the same
localId, and the store then holds two records with equal ids — the
timestamp-plus-random generator carries no distinctness guarantee. -/
theorem claim_C5_counterexample :
    ((addJob ((addJob [] "a.hwp" 5 "abc").2) "b.hwp" 5 "abc").1).id =
      ((addJob [] "a.hwp" 5 "abc").1).id ∧
    ((addJob ((addJob [] "a.hwp" 5 "abc").2) "b.hwp" 5 "abc").2.map
      (fun j => j.id)) = ["temp_5_abc", "temp_5_abc"] := by
  constructor
  · decide
  · decide

/-- A sequence of `addJob` calls: each element supplies the filename, the
`Date.now()` value and the random suffix of one call. -/
def runAdds (store : List Job) : List (String × Nat × String) → List Job
  | [] => store
  | (f, t, r) :: rest => runAdds (addJob store f t r).2 rest

theorem runAdds_eq (calls : List (String × Nat × String)) :
    ∀ store, runAdds store calls =
      store ++ calls.map (fun c => (addJob [] c.1 c.2.1 c.2.2).1) := by
  induction calls with
  | nil => intro store; simp [runAdds]
  | cons c rest ih =>
    intro store
    obtain ⟨f, t, r⟩ := c
    simp only [runAdds, ih, List.map_cons]
    simp [addJob]

/-- C5 (amended): the returned localIds are pairwise distinct *provided* the
`(Date.now(), random suffix)` pairs drawn by the calls are pairwise
distinct — the id `'temp_' + time + '_' + rand` is injective in that pair
(`makeId_inj`), but nothing in the code prevents two calls from drawing the
same pair, so distinctness is only as good as the entropy source. -/
theorem claim_C5_amended (calls : List (String × Nat × String))
    (h : calls.Pairwise (fun a b => a.2 ≠ b.2)) :
    ((runAdds [] calls).map (fun j => j.id)).Pairwise (fun x y => x ≠ y) := by
  rw [runAdds_eq, List.nil_append, List.map_map]
  have hfun : ((fun j => j.id) ∘ (fun c : String × Nat × String =>
      (addJob [] c.1 c.2.1 c.2.2).1)) =
      fun c : String × Nat × String => makeId c.2.1 c.2.2 := rfl
  rw [hfun]
  refine h.map _ ?_
  intro a b hne heq
  obtain ⟨ht, hr⟩ := makeId_inj a.2.1 b.2.1 a.2.2 b.2.2 heq
  exact hne (Prod.ext ht hr)

/-- Witness for the amended C5: two calls with distinct timestamps produce
distinct ids. -/
theorem claim_C5_amended_witness :
    ((runAdds [] [("a.hwp", 1, "x"), ("b.hwp", 2, "y")]).map
      (fun j => j.id)).Pairwise (fun x y => x ≠ y) :=
  claim_C5_amended [("a.hwp", 1, "x"), ("b.hwp", 2, "y")] (by decide)

/-- C6: `updateJobStatus` on an absent localId returns `null` (the
not-found indication) and leaves every record unchanged; the function is
total, so no exception escapes. -/
theorem claim_C6_update_absent (store : List Job) (id : String)
    (st : Option Status) (pr : Option ℚ) (sj : Option String)
    (h : getJob store id = none) :
    updateJobStatus store id st pr sj = (none, store) := by
  unfold updateJobStatus
  rw [h]

/-- Witness for C6 on a concrete store and an id not present in it. -/
theorem claim_C6_witness :
    updateJobStatus [c3Job] "absent" (some .failed) (some 0) none =
      (none, [c3Job]) :=
  claim_C6_update_absent [c3Job] "absent" (some .failed) (some 0) none (by decide)

/-- C7 counterexample: `serverJobId` explicitly provided as the empty string
is *not* written (JavaScript truthiness: `if (serverJobId)` skips `""`): the
record keeps its old server id, refuting "every field explicitly provided to
the call is overwritten with the provided value". -/
theorem claim_C7_counterexample :
    (updateJobStatus [c3Job] "temp_1_bbbbbbbbb" none none (some "")).2 = [c3Job] ∧
    c3Job.job_id = some "J2" ∧ (some "J2" : Option String) ≠ some "" := by
  refine ⟨by decide, rfl, by decide⟩

/-- C7 (amended): `updateJobStatus` partially updates only the three fields
the call accepts — status, progress, serverJobId.  A provided status or
progress always overwrites; a provided serverJobId overwrites `job_id` only
when non-empty and is skipped when it is the empty string; `error` and a
result reference are not parameters of this call at all (callers write
`job.error` by direct mutation), and `filename`, `localId` (`id`),
`createdAt` and `error` are always left unchanged. -/
theorem claim_C7_amended (store : List Job) (id : String) (job : Job)
    (st : Option Status) (pr : Option ℚ) (sj : Option String)
    (h : getJob store id = some job) :
    (updateJobStatus store id st pr sj).1.isSome = true ∧
    (∀ job', (updateJobStatus store id st pr sj).1 = some job' →
      ((∀ s, st = some s → job'.status = s) ∧
       (st = none → job'.status = job.status) ∧
       (∀ p, pr = some p → job'.progress = p) ∧
       (pr = none → job'.progress = job.progress) ∧
       (∀ v, sj = some v → v ≠ "" → job'.job_id = some v) ∧
       ((sj = none ∨ sj = some "") → job'.job_id = job.job_id) ∧
       job'.filename = job.filename ∧
       job'.id = job.id ∧
       job'.created_at = job.created_at ∧
       job'.error = job.error)) := by
  rw [updateJobStatus_found store id job st pr sj h]
  refine ⟨rfl, ?_⟩
  intro job' hj'
  injection hj' with he
  subst he
  refine ⟨?_, ?_, ?_, ?_, ?_, ?_, applyUpdate_filename job st pr sj,
    applyUpdate_id job st pr sj, applyUpdate_created_at job st pr sj,
    applyUpdate_error job st pr sj⟩
  · intro s hs
    subst hs
    exact applyUpdate_status_some job s pr sj
  · intro hs
    subst hs
    exact applyUpdate_status_none job pr sj
  · intro p hp
    subst hp
    exact applyUpdate_progress_some job st p sj
  · intro hp
    subst hp
    exact applyUpdate_progress_none job st sj
  · intro v hv hne
    subst hv
    exact applyUpdate_job_id_some job st pr v hne
  · exact fun hor => applyUpdate_job_id_skip job st pr sj hor

/-- Witness for the amended C7 at a concrete update that sets all three
fields. -/
theorem claim_C7_amended_witness :
    ({ c3Job with status := .completed, progress := 50, job_id := some "X" } : Job).status
      = .completed := by
  have happly := (claim_C7_amended [c3Job] "temp_1_bbbbbbbbb" c3Job
    (some .completed) (some 50) (some "X") (by decide)).2
    { c3Job with status := .completed, progress := 50, job_id := some "X" } (by decide)
  exact happly.1 .completed rfl

end HwpPdf

namespace HwpPdf

/-- C8 counterexample: the pywebview `processFile` performs no size check at
all — a 55 MiB `.hwp` file, over the configured 50 MiB maximum of the
fetch-based controller, is accepted and a Job record is created. -/
theorem claim_C8_counterexample :
    55 * 1024 * 1024 > MAX_FILE_SIZE ∧
    (processFile_ui [] "big.hwp" (55 * 1024 * 1024) 0 "r").job ≠ none ∧
    (processFile_ui [] "big.hwp" (55 * 1024 * 1024) 0 "r").store ≠ [] := by
  refine ⟨by norm_num [MAX_FILE_SIZE], by decide, by decide⟩

/-- C8 (amended): in the fetch-based controller the claim holds as stated —
an extension outside {hwp, hwpx, odt, docx}, or a size over 50 MiB, is
rejected with a user-visible alert and no Job record is created (the store
is returned unchanged).  In the pywebview controller only the extension
allow-list {hwp, hwpx} is enforced; it has no size check, so an oversized
file with an allowed extension is accepted there (see the
counterexample). -/
theorem claim_C8_amended (store : List Job) (name : String) (size time : Nat)
    (rand : String) :
    (extOf name ∉ webAllowedExts →
      processFile_web store name size time rand =
        { store := store
          job := none
          alert := some ("Skipped " ++ name ++ ": Unsupported file type.") }) ∧
    (extOf name ∈ webAllowedExts → size > MAX_FILE_SIZE →
      processFile_web store name size time rand =
        { store := store
          job := none
          alert := some ("Skipped " ++ name ++ ": File too large.") }) ∧
    (extOf (uiFilename name) ∉ uiAllowedExts →
      processFile_ui store name size time rand =
        { store := store
          job := none
          alert := some (uiFilename name ++ " is not a supported format.") }) := by
  refine ⟨?_, ?_, ?_⟩
  · intro hext
    simp [processFile_web, hext]
  · intro hext hsize
    simp [processFile_web, hext, hsize]
  · intro hext
    simp [processFile_ui, hext]

/-- Witness for the amended C8: a `.zip` file is rejected for its extension
and an oversized `.odt` file is rejected for its size, neither creating a
record. -/
theorem claim_C8_amended_witness :
    processFile_web [] "report.zip" 1 0 "r" =
      { store := []
        job := none
        alert := some "Skipped report.zip: Unsupported file type." } ∧
    processFile_web [] "doc.odt" (55 * 1024 * 1024) 0 "r" =
      { store := []
        job := none
        alert := some "Skipped doc.odt: File too large." } :=
  ⟨(claim_C8_amended [] "report.zip" 1 0 "r").1 (by decide),
   (claim_C8_amended [] "doc.odt" (55 * 1024 * 1024) 0 "r").2.1 (by decide)
     (by norm_num [MAX_FILE_SIZE])⟩

theorem setPdf_found (store : List Job) (id : String) (job : Job)
    (pp pf : Option String) (h : getJob store id = some job) :
    setPdf store id pp pf =
      replaceFirst store id { job with pdf_path := pp, pdf_filename := pf } := by
  unfold setPdf
  rw [h]

theorem getJob_setPdf (store : List Job) (id : String) (job : Job)
    (pp pf : Option String) (h : getJob store id = some job) :
    getJob (setPdf store id pp pf) id =
      some { job with pdf_path := pp, pdf_filename := pf } := by
  rw [setPdf_found store id job pp pf h]
  exact getJob_replaceFirst store id job _ h (getJob_id store id job h)

/-- Trace and outcome of the synchronous controller after job creation, run
on the store that holds exactly the freshly created (`'pending'`) record:
zero status queries, no `uploading` entry, and the terminal state is tied to
the conversion outcome — `completed` at progress 100 exactly when
`convert_file` returned `success: true`, `failed` at progress 0 on a
non-success result or a thrown exception. -/
theorem continueConvert_trace (job : Job) (cr : ConvertOutcome)
    (hst : job.status = .pending) :
    (continueConvert [job] job cr).2.2 = 0 ∧
    Status.uploading ∉ (continueConvert [job] job cr).2.1 ∧
    (∀ pp pf err, cr = .ok true pp pf err →
      (continueConvert [job] job cr).2.1 =
        [Status.pending, Status.processing, Status.completed] ∧
      ∃ j, getJob (continueConvert [job] job cr).1 job.id = some j ∧
        j.status = .completed ∧ j.progress = 100) ∧
    ((∀ pp pf err, cr ≠ .ok true pp pf err) →
      (continueConvert [job] job cr).2.1 =
        [Status.pending, Status.processing, Status.failed] ∧
      ∃ j, getJob (continueConvert [job] job cr).1 job.id = some j ∧
        j.status = .failed ∧ j.progress = 0) := by
  have hg1 : getJob [job] job.id = some job := getJob_singleton job
  have hr1 : readStatus [job] job.id = [Status.pending] := by
    rw [readStatus_of_getJob _ _ _ hg1, hst]
  have hr2 := readStatus_update [job] job.id job .processing (some 30) none hg1
  have hg2 := getJob_updateJobStatus [job] job.id job (some .processing) (some 30) none hg1
  cases cr with
  | ok success pp pf err =>
    cases success with
    | true =>
      have hg3 := getJob_setPdf _ job.id _ pp pf hg2
      have hr4 := readStatus_update _ job.id
        { applyUpdate job (some .processing) (some 30) none with
          pdf_path := pp, pdf_filename := pf }
        .completed (some 100) none hg3
      have hg4 := getJob_updateJobStatus _ job.id _ (some .completed) (some 100) none hg3
      refine ⟨rfl, ?_, ?_, ?_⟩
      · simp [continueConvert, hr1, hr2, hr4]
      · intro pp' pf' err' heq
        refine ⟨by simp [continueConvert, hr1, hr2, hr4], ?_⟩
        refine ⟨_, hg4, ?_, ?_⟩
        · exact applyUpdate_status_some _ _ _ _
        · exact applyUpdate_progress_some _ _ _ _
      · intro hne
        exact absurd rfl (hne pp pf err)
    | false =>
      have hg3 := getJob_setError _ job.id _ err hg2
      have hr4 := readStatus_update _ job.id
        { applyUpdate job (some .processing) (some 30) none with error := err }
        .failed (some 0) none hg3
      have hg4 := getJob_updateJobStatus _ job.id _ (some .failed) (some 0) none hg3
      refine ⟨rfl, ?_, ?_, ?_⟩
      · simp [continueConvert, hr1, hr2, hr4]
      · intro pp' pf' err' heq
        simp at heq
      · intro hne
        refine ⟨by simp [continueConvert, hr1, hr2, hr4], ?_⟩
        refine ⟨_, hg4, ?_, ?_⟩
        · exact applyUpdate_status_some _ _ _ _
        · exact applyUpdate_progress_some _ _ _ _
  | threw msg =>
    have hg3 := getJob_setError _ job.id _
      (some (messageOr msg "conversion error")) hg2
    have hr4 := readStatus_update _ job.id
      { applyUpdate job (some .processing) (some 30) none with
        error := some (messageOr msg "conversion error") }
      .failed (some 0) none hg3
    have hg4 := getJob_updateJobStatus _ job.id _ (some .failed) (some 0) none hg3
    refine ⟨rfl, ?_, ?_, ?_⟩
    · simp [continueConvert, hr1, hr2, hr4]
    · intro pp' pf' err' heq
      exact ConvertOutcome.noConfusion heq
    · intro hne
      refine ⟨by simp [continueConvert, hr1, hr2, hr4], ?_⟩
      refine ⟨_, hg4, ?_, ?_⟩
      · exact applyUpdate_status_some _ _ _ _
      · exact applyUpdate_progress_some _ _ _ _

/-- C9 counterexample: in the synchronous mode a successfully converted file
has status trace `pending → processing → completed`: the job is never in
status `uploading`, so the claimed direct transition from `uploading` to a
terminal state does not occur. -/
theorem claim_C9_counterexample :
    (runJob_ui "a.hwp" 1 0 "r" (.ok true (some "p.pdf") (some "a.pdf") none)).2.1 =
      [Status.pending, Status.processing, Status.completed] ∧
    Status.uploading ∉
      (runJob_ui "a.hwp" 1 0 "r" (.ok true (some "p.pdf") (some "a.pdf") none)).2.1 := by
  refine ⟨by decide, by decide⟩

/-- C9 (amended): for every accepted file, the synchronous controller skips
the polling phase entirely — zero status queries are issued — and the job
transitions `pending → processing → terminal` with the terminal state tied
to the conversion outcome: `completed` at progress 100 exactly when
`convert_file` reports success, `failed` at progress 0 on a non-success
result or a thrown exception; the status `uploading` never occurs and there
is no intermediate status query. -/
theorem claim_C9_amended (filePath : String) (size time : Nat) (rand : String)
    (cr : ConvertOutcome)
    (hext : extOf (uiFilename filePath) ∈ uiAllowedExts) :
    (runJob_ui filePath size time rand cr).2.2 = 0 ∧
    Status.uploading ∉ (runJob_ui filePath size time rand cr).2.1 ∧
    (∀ pp pf err, cr = .ok true pp pf err →
      (runJob_ui filePath size time rand cr).2.1 =
        [Status.pending, Status.processing, Status.completed] ∧
      ∃ j, getJob (runJob_ui filePath size time rand cr).1 (makeId time rand) = some j ∧
        j.status = .completed ∧ j.progress = 100) ∧
    ((∀ pp pf err, cr ≠ .ok true pp pf err) →
      (runJob_ui filePath size time rand cr).2.1 =
        [Status.pending, Status.processing, Status.failed] ∧
      ∃ j, getJob (runJob_ui filePath size time rand cr).1 (makeId time rand) = some j ∧
        j.status = .failed ∧ j.progress = 0) := by
  have hui : processFile_ui [] filePath size time rand =
      { store := [(addJob [] (uiFilename filePath) time rand).1]
        job := some (addJob [] (uiFilename filePath) time rand).1
        alert := none } := by
    simp [processFile_ui, hext, addJob]
  have hred : runJob_ui filePath size time rand cr =
      continueConvert [(addJob [] (uiFilename filePath) time rand).1]
        (addJob [] (uiFilename filePath) time rand).1 cr := by
    rw [runJob_ui, hui]
  rw [hred]
  exact continueConvert_trace (addJob [] (uiFilename filePath) time rand).1 cr rfl

/-- Witness for the amended C9: a successful conversion of an accepted file
yields a poll-free `pending → processing → completed` run. -/
theorem claim_C9_amended_witness :
    (runJob_ui "a.hwp" 1 0 "r" (.ok true (some "p.pdf") (some "a.pdf") none)).2.2 = 0 ∧
    (runJob_ui "a.hwp" 1 0 "r" (.ok true (some "p.pdf") (some "a.pdf") none)).2.1 =
      [Status.pending, Status.processing, Status.completed] :=
  ⟨(claim_C9_amended "a.hwp" 1 0 "r" (.ok true (some "p.pdf") (some "a.pdf") none)
      (by decide)).1,
   ((claim_C9_amended "a.hwp" 1 0 "r" (.ok true (some "p.pdf") (some "a.pdf") none)
      (by decide)).2.2.1 (some "p.pdf") (some "a.pdf") none rfl).1⟩

theorem getJobByServerId_first (pre : List Job) (j : Job) (post : List Job)
    (sj : Option String) (hpre : ∀ k ∈ pre, k.job_id ≠ sj) (hj : j.job_id = sj) :
    getJobByServerId (pre ++ j :: post) sj = some j := by
  induction pre with
  | nil => simp [getJobByServerId, List.find?_cons, hj]
  | cons k ks ih =>
    have hk : k.job_id ≠ sj := hpre k (by simp)
    simp only [List.cons_append, getJobByServerId, List.find?_cons, decide_eq_false hk]
    exact ih (fun x hx => hpre x (by simp [hx]))

/-- C10: `getJobByServerId` returns the first record in insertion order whose
`job_id` equals the queried value (all records before the match disagree
with the query); and every record created by `addJob` starts with
`job_id = null`, so a query with `null` finds the earliest record that has
not yet been assigned a server id — it returns that record, not "no job". -/
theorem claim_C10_first_match (pre : List Job) (j : Job) (post : List Job)
    (sj : Option String) (store : List Job) (f : String) (t : Nat) (r : String)
    (hpre : ∀ k ∈ pre, k.job_id ≠ sj) (hj : j.job_id = sj) :
    getJobByServerId (pre ++ j :: post) sj = some j ∧
    (addJob store f t r).1.job_id = none :=
  ⟨getJobByServerId_first pre j post sj hpre hj, rfl⟩

/-- Witness for C10: in a store whose first record has a server id and whose
second and third were freshly created (server id `null`), querying with
`null` returns the second record — the earliest unassigned one. -/
theorem claim_C10_witness :
    getJobByServerId [{ c3Job with id := "temp_2_cc", job_id := some "Z" },
        (addJob [] "w.hwp" 7 "w").1, (addJob [] "v.hwp" 8 "v").1] none =
      some (addJob [] "w.hwp" 7 "w").1 ∧
    (addJob [] "w.hwp" 7 "w").1.job_id = none :=
  claim_C10_first_match [{ c3Job with id := "temp_2_cc", job_id := some "Z" }]
    (addJob [] "w.hwp" 7 "w").1 [(addJob [] "v.hwp" 8 "v").1] none [] "w.hwp" 7 "w"
    (by decide) (by decide)

end HwpPdf
